import Mathlib

/-!
# Shallow embedding of the kappalib identity / sync / moderation core

Definitions below translate the Go source of the repository
(`internal/data/users.go`, `internal/data/comments.go`,
`internal/data/novels.go`, `internal/cache/cache.go`) into Lean.
Go maps are modelled as association lists (finitely many keys, lookup
by key, assignment replaces the entry), Go strings as Lean `String`
(`len` on a Go string is the UTF-8 byte count, modelled by `goLen`),
wall-clock instants as `Int` nanoseconds, database rows as structures,
and external effects (CAPTCHA verifier, DB insert outcome, fetch
callbacks, randomness) as explicit parameters.
-/

namespace Kappalib

/-! ## Go string primitives -/

/-- Number of bytes of the UTF-8 encoding of one character, as Go's
`len(string(c))` would count them. -/
def charUtf8Size (c : Char) : Nat :=
  if c.toNat ≤ 0x7F then 1
  else if c.toNat ≤ 0x7FF then 2
  else if c.toNat ≤ 0xFFFF then 3
  else 4

/-- Go's `len` on a string: the UTF-8 byte length. -/
def goLen (s : String) : Nat :=
  (s.data.map charUtf8Size).sum

/-- The character class matched by `\s` in a Go regular expression
(`[\t\n\f\r ]`, ASCII only). -/
def isGoRegexSpace (c : Char) : Bool :=
  c = '\t' || c = '\n' || c = '\x0c' || c = '\r' || c = ' '

/-- The whitespace set of Go's `unicode.IsSpace` restricted to Latin-1
(tab, newline, vertical tab, form feed, carriage return, space, NEL,
no-break space); `strings.TrimSpace` trims exactly these characters on
Latin-1 input. -/
def isGoSpace (c : Char) : Bool :=
  c = ' ' || c = '\t' || c = '\n' || c = '\x0b' || c = '\x0c' || c = '\r' ||
  c = '\x85' || c = '\xa0'

/-- Lower-case/upper-case letter pairs of the ASCII fragment of Go's
`unicode.ToUpper` (sync codes and their normalization only involve
ASCII; on other characters the mapping is the identity here). -/
def azPairs : List (Char × Char) :=
  [('a', 'A'), ('b', 'B'), ('c', 'C'), ('d', 'D'), ('e', 'E'), ('f', 'F'),
   ('g', 'G'), ('h', 'H'), ('i', 'I'), ('j', 'J'), ('k', 'K'), ('l', 'L'),
   ('m', 'M'), ('n', 'N'), ('o', 'O'), ('p', 'P'), ('q', 'Q'), ('r', 'R'),
   ('s', 'S'), ('t', 'T'), ('u', 'U'), ('v', 'V'), ('w', 'W'), ('x', 'X'),
   ('y', 'Y'), ('z', 'Z')]

/-- Character-wise case mapping used by the model of `strings.ToUpper`. -/
def charToUpper (c : Char) : Char :=
  match azPairs.find? (fun p => p.1 == c) with
  | some p => p.2
  | none => c

/-- Model of Go's `strings.ToUpper`. -/
def goToUpper (s : String) : String :=
  String.mk (s.data.map charToUpper)

/-- Drop leading and trailing whitespace from a character list. -/
def trimList (l : List Char) : List Char :=
  ((l.dropWhile isGoSpace).reverse.dropWhile isGoSpace).reverse

/-- Model of Go's `strings.TrimSpace`: drop leading and trailing
whitespace. -/
def goTrimSpace (s : String) : String :=
  String.mk (trimList s.data)

/-! ## Cookie bags (`internal/data/users.go`)

A Go `map[string]models.CookieValue` is modelled as an association
list; `cLookup` is map indexing and `cInsert` is map assignment
(replacing any previous entry for the key). -/

/-- `models.CookieValue`: a synced cookie's value together with the
client-supplied `updated_at` timestamp. -/
structure CookieValue where
  value : String
  updatedAt : Int
  deriving DecidableEq, Repr

/-- A Go `map[string]models.CookieValue`. -/
abbrev CookieMap : Type := List (String × CookieValue)

/-- Map indexing: value stored for `k`, if any. -/
def cLookup (m : CookieMap) (k : String) : Option CookieValue :=
  match m with
  | [] => none
  | (k', v) :: rest => if k' = k then some v else cLookup rest k

/-- Map assignment `m[k] = v`. -/
def cInsert (m : CookieMap) (k : String) (v : CookieValue) : CookieMap :=
  (k, v) :: List.filter (fun p => p.1 ≠ k) m

/-- One iteration of the `mergeCookies` loop body for the entry
`(name, incomingCv)`. -/
def mergeStep (result : CookieMap) (name : String) (incomingCv : CookieValue) :
    CookieMap :=
  match cLookup result name with
  | some existingCv =>
      if incomingCv.updatedAt > existingCv.updatedAt then
        cInsert result name incomingCv
      else
        result
  | none => cInsert result name incomingCv

/-- `mergeCookies` from `internal/data/users.go`: start from a copy of
`existing` and fold the loop body over the entries of `incoming`. -/
def mergeCookies (existing incoming : CookieMap) : CookieMap :=
  incoming.foldl (fun result p => mergeStep result p.1 p.2) existing

/-- `cookieNameRegex`: `^kappalib_[a-z0-9_]{1,50}$`. -/
def validCookieNameChar (c : Char) : Bool :=
  ('a' ≤ c && c ≤ 'z') || ('0' ≤ c && c ≤ '9') || c = '_'

/-- Whether a cookie name matches `cookieNameRegex`. -/
def validCookieName (s : String) : Bool :=
  "kappalib_".isPrefixOf s &&
  (let rest := s.data.drop 9
   1 ≤ rest.length && rest.length ≤ 50 && rest.all validCookieNameChar)

/-- `cookieValueRegex`: `^[a-zA-Z0-9_\-]{1,200}$`. -/
def validCookieValueChar (c : Char) : Bool :=
  ('a' ≤ c && c ≤ 'z') || ('A' ≤ c && c ≤ 'Z') || ('0' ≤ c && c ≤ '9') ||
  c = '_' || c = '-'

/-- Whether a cookie value matches `cookieValueRegex`. -/
def validCookieValue (s : String) : Bool :=
  1 ≤ s.data.length && s.data.length ≤ 200 && s.data.all validCookieValueChar

/-- `validateCookies` from `internal/data/users.go`: keep exactly the
entries whose name and value match the two regular expressions. -/
def validateCookies (cookies : CookieMap) : CookieMap :=
  cookies.filter (fun p => validCookieName p.1 && validCookieValue p.2.value)

/-! ## Profile store (`internal/data/users.go`)

The `users` table is modelled as a list of rows; SQL `SELECT ... WHERE`
with `QueryRow` is `List.find?`, and `UPDATE ... WHERE` maps a
row-transformer over the list. Columns not read by the claims
(`has_custom_avatar`, `last_active_at`) are omitted. -/

/-- One row of the `users` table. -/
structure UserRow where
  id : String
  secretToken : String
  displayName : String
  avatarSeed : String
  createdAt : Int
  cookies : CookieMap
  syncCode : Option String
  syncCodeExpiresAt : Option Int
  deriving DecidableEq, Repr

/-- `verifySecretToken`: look the profile up by id and compare the
stored token with the provided one (the Go code uses a constant-time
comparison, which is plain equality extensionally). -/
def verifySecretToken (db : List UserRow) (profileID providedToken : String) :
    Bool :=
  match db.find? (fun u => u.id == profileID) with
  | some u => u.secretToken == providedToken
  | none => false

/-- `SyncCookies`: validate the incoming entries, authenticate, read the
stored bag, merge, and persist the merge. Returns `none` on an invalid
secret token (the row read cannot fail once authentication passed),
otherwise the updated table and the merged bag. -/
def SyncCookies (db : List UserRow) (profileID secretToken : String)
    (cookies : CookieMap) : Option (List UserRow × CookieMap) :=
  let validCookies := validateCookies cookies
  if verifySecretToken db profileID secretToken then
    match db.find? (fun u => u.id == profileID) with
    | some u =>
        let merged := mergeCookies u.cookies validCookies
        some (db.map (fun v => if v.id == profileID then
                { v with cookies := merged } else v), merged)
    | none => none
  else
    none

/-! ## Sync codes (`internal/data/users.go`) -/

/-- The 32-symbol alphabet of `generateSyncCode` (no `0`/`O`/`1`/`I`). -/
def syncAlphabet : List Char :=
  ['A', 'B', 'C', 'D', 'E', 'F', 'G', 'H', 'J', 'K', 'L', 'M', 'N', 'P',
   'Q', 'R', 'S', 'T', 'U', 'V', 'W', 'X', 'Y', 'Z', '2', '3', '4', '5',
   '6', '7', '8', '9']

/-- `generateSyncCode`: an 8-character code over `syncAlphabet`; the
eight cryptographically random index draws are the argument `f`. -/
def generateSyncCode (f : Fin 8 → Fin 32) : String :=
  String.mk ((List.finRange 8).map (fun i => syncAlphabet.get (Fin.cast rfl (f i))))

/-- 15 minutes in nanoseconds: the sync-code lifetime. -/
def syncCodeTTL : Int := 15 * 60 * 1000000000

/-- `GenerateSyncCode`: authenticate, then overwrite the profile's sync
code and expiry. The freshly drawn code is the argument `code`; on an
invalid secret token the result is `none` ("invalid secret token"). -/
def GenerateSyncCode (db : List UserRow) (now : Int)
    (profileID secretToken code : String) :
    Option (Int × List UserRow) :=
  if verifySecretToken db profileID secretToken then
    some (now + syncCodeTTL,
      db.map (fun v => if v.id == profileID then
        { v with syncCode := some code, syncCodeExpiresAt := some (now + syncCodeTTL) }
        else v))
  else
    none

/-- The two failure modes of `LoginWithSyncCode`: "invalid sync code
format" (length check) and "invalid or expired sync code" (no matching
row). -/
inductive SyncError where
  | invalidFormat
  | invalidOrExpired
  deriving DecidableEq, Repr

/-- `models.LoginResponse`: public profile fields, the secret token and
the full cookie bag. -/
structure LoginResponse where
  profileID : String
  displayName : String
  avatarSeed : String
  createdAt : Int
  secretToken : String
  cookies : CookieMap
  deriving DecidableEq, Repr

/-- The normalization performed first by `LoginWithSyncCode`:
`strings.ToUpper(strings.TrimSpace(code))`. -/
def loginNormalize (s : String) : String :=
  goToUpper (goTrimSpace s)

/-- The `WHERE sync_code = $1 AND sync_code_expires_at > now()` filter. -/
def syncCodeMatches (now : Int) (code : String) (u : UserRow) : Bool :=
  u.syncCode == some code &&
    (match u.syncCodeExpiresAt with
     | some e => now < e
     | none => false)

/-- `LoginWithSyncCode`: normalize, require 8 bytes, look a matching
unexpired row up; on success clear that profile's code and return the
profile, its secret token and its cookie bag. Returns the (possibly
updated) table alongside the result. -/
def LoginWithSyncCode (db : List UserRow) (now : Int) (rawCode : String) :
    Except SyncError LoginResponse × List UserRow :=
  let syncCode := loginNormalize rawCode
  if goLen syncCode ≠ 8 then
    (.error .invalidFormat, db)
  else
    match db.find? (syncCodeMatches now syncCode) with
    | none => (.error .invalidOrExpired, db)
    | some u =>
        (.ok { profileID := u.id, displayName := u.displayName,
               avatarSeed := u.avatarSeed, createdAt := u.createdAt,
               secretToken := u.secretToken, cookies := u.cookies },
         db.map (fun v => if v.id == u.id then
           { v with syncCode := none, syncCodeExpiresAt := none } else v))

/-! ## Comment pipeline (`internal/data/comments.go`) -/

/-- One row of the `comments` table, restricted to the columns the
status state machine reads. -/
structure CommentRow where
  id : String
  chapterId : String
  userId : String
  contentHtml : String
  status : String
  deriving DecidableEq, Repr

/-- `Modelled from the spec:` the file `sql/comments_update_status.sql`
(embedded as `queryCommentsUpdateStatus`) is not under `src/`. Per
§4.4 of the spec the status states are
`submitted -> pending -> {approved | rejected}` with the terminal
states admitting no further transitions, and the callback "updates the
comment status row", so the update applies to a pending row with the
given id and returns its id (`RETURNING id`; `QueryRow.Scan` fails when
no row was updated, giving `none`). -/
def applyStatusUpdate (status commentID : String) (r : CommentRow) :
    CommentRow :=
  if r.id == commentID && r.status == "pending" then
    { r with status := status }
  else
    r

/-- `Modelled from the spec:` the row set touched by the modelled update
query of `sql/comments_update_status.sql` (not under `src/`); see
`applyStatusUpdate` for the per-row effect and its rationale. -/
def runUpdateCommentStatusQuery (db : List CommentRow)
    (status commentID : String) : Option (String × List CommentRow) :=
  if db.any (fun r => r.id == commentID && r.status == "pending") then
    some (commentID, db.map (applyStatusUpdate status commentID))
  else
    none

/-- `UpdateCommentStatus` from `internal/data/comments.go`: run the
embedded update query and fail when `Scan` reports no row. -/
def UpdateCommentStatus (db : List CommentRow) (commentID status : String) :
    Except Unit (List CommentRow) :=
  match runUpdateCommentStatusQuery db status commentID with
  | some (_, db') => .ok db'
  | none => .error ()

/-- `Modelled from the spec:` the Telegram webhook handler
(`api.HandleTelegramWebhook`, registered in `cmd/server`) is not under
`src/`. Per §4.4, `HandleModerationCallback(action, commentId)` treats
`approve` and `reject` and ignores any other action; the message-edit
side effect after the status update is external and dropped here. -/
def handleModerationCallback (db : List CommentRow)
    (action commentID : String) : List CommentRow :=
  if action == "approve" then
    match UpdateCommentStatus db commentID "approved" with
    | .ok db' => db'
    | .error _ => db
  else if action == "reject" then
    match UpdateCommentStatus db commentID "rejected" with
    | .ok db' => db'
    | .error _ => db
  else
    db

/-- `models.CreateCommentInput`. -/
structure CreateCommentInput where
  chapterId : String
  content : String
  turnstileToken : String

/-- The failure modes of `CreateComment`, in pipeline order. -/
inductive CommentError where
  | invalidLength
  | rateLimited
  | captchaRejected
  | chapterNotFound
  | forbidden
  | insertFailed
  deriving DecidableEq, Repr

/-- `commentCooldown = 30 * time.Second`, in nanoseconds. -/
def commentCooldown : Int := 30 * 1000000000

/-- The per-author cooldown map `userCommentLimiter.lastComment`
(profile id to the `time.Now()` of the last accepted comment). -/
abbrev CooldownMap : Type := List (String × Int)

/-- Lookup in the cooldown map. -/
def cooldownLookup (m : CooldownMap) (userID : String) : Option Int :=
  match m with
  | [] => none
  | (k, t) :: rest => if k = userID then some t else cooldownLookup rest userID

/-- `checkCommentRateLimit`: reject when the author commented less than
`commentCooldown` ago. -/
def checkCommentRateLimit (m : CooldownMap) (userID : String) (now : Int) :
    Bool :=
  match cooldownLookup m userID with
  | some last => !(now - last < commentCooldown)
  | none => true

/-- `recordCommentTime`: map assignment `lastComment[userID] = now`. -/
def recordCommentTime (m : CooldownMap) (userID : String) (now : Int) :
    CooldownMap :=
  (userID, now) :: List.filter (fun p => p.1 ≠ userID) m

/-- External collaborators and oracles of `CreateComment`: the clock,
the CAPTCHA verdict per token, the `chapters` table (ids), the `users`
table, whether the DB insert succeeds, the id the DB mints for the new
row, and the markdown-render/sanitize function (blackfriday followed by
the bluemonday allow-list policy), kept abstract. -/
structure CommentsEnv where
  now : Int
  captchaOk : String → Bool
  chapters : List String
  users : List UserRow
  insertOk : Bool
  newCommentId : String
  render : String → String

/-- The mutable state `CreateComment` touches: the in-process cooldown
map and the `comments` table. -/
structure CommentsState where
  lastComment : CooldownMap
  comments : List CommentRow

/-- `chapterExists`: `SELECT EXISTS(... WHERE id = $1)`. -/
def chapterExists (env : CommentsEnv) (chapterID : String) : Bool :=
  env.chapters.any (fun c => c == chapterID)

/-- `CreateComment` from `internal/data/comments.go`: length check,
per-author cooldown, CAPTCHA, chapter existence, authentication,
render, insert with status `pending`, and only then record the cooldown
timestamp. The asynchronous Telegram delivery does not touch this
state and is dropped. -/
def CreateComment (env : CommentsEnv) (st : CommentsState)
    (profileID secretToken : String) (input : CreateCommentInput) :
    Except CommentError CommentRow × CommentsState :=
  if goLen input.content = 0 || goLen input.content > 1000 then
    (.error .invalidLength, st)
  else if !checkCommentRateLimit st.lastComment profileID env.now then
    (.error .rateLimited, st)
  else if !env.captchaOk input.turnstileToken then
    (.error .captchaRejected, st)
  else if !chapterExists env input.chapterId then
    (.error .chapterNotFound, st)
  else if !verifySecretToken env.users profileID secretToken then
    (.error .forbidden, st)
  else
    let contentHTML := env.render input.content
    if env.insertOk then
      let comment : CommentRow :=
        { id := env.newCommentId, chapterId := input.chapterId,
          userId := profileID, contentHtml := contentHTML,
          status := "pending" }
      (.ok comment,
       { lastComment := recordCommentTime st.lastComment profileID env.now,
         comments := st.comments ++ [comment] })
    else
      (.error .insertFailed, st)

/-! ## In-memory TTL cache (`internal/cache/cache.go`) -/

/-- A cache entry: the stored value and its expiration instant
(`UnixNano`). -/
structure CacheItem (α : Type) where
  value : α
  expiration : Int
  deriving DecidableEq, Repr

/-- The cache's `items` map. -/
abbrev CacheMap (α : Type) : Type := List (String × CacheItem α)

/-- Lookup in the items map. -/
def cacheLookup {α : Type} (m : CacheMap α) (key : String) :
    Option (CacheItem α) :=
  match m with
  | [] => none
  | (k, it) :: rest => if k = key then some it else cacheLookup rest key

/-- `Cache.Get`: a hit only when the key is present and
`time.Now().UnixNano()` is still strictly below the expiration. -/
def cacheGet {α : Type} (m : CacheMap α) (key : String) (now : Int) :
    Option α :=
  match cacheLookup m key with
  | none => none
  | some it => if now ≥ it.expiration then none else some it.value

/-- `Cache.Set`: store the value with expiration `now + duration`. -/
def cacheSet {α : Type} (m : CacheMap α) (key : String) (value : α)
    (duration now : Int) : CacheMap α :=
  (key, { value := value, expiration := now + duration }) ::
    List.filter (fun p => p.1 ≠ key) m

/-- `Cache.GetOrFetch`: return a fresh hit; otherwise run `fetch`
(whose outcome is the parameter `fetchResult`), propagate its error
without touching the map, and on success store the fetched value. -/
def getOrFetch {α ε : Type} (m : CacheMap α) (key : String)
    (duration : Int) (fetchResult : Except ε α) (now : Int) :
    Except ε α × CacheMap α :=
  match cacheGet m key now with
  | some value => (.ok value, m)
  | none =>
      match fetchResult with
      | .error e => (.error e, m)
      | .ok value => (.ok value, cacheSet m key value duration now)

/-! ## Novel listing sort (`internal/data/novels.go`) -/

/-- The `switch sort` of `GetNovels`: the fixed `ORDER BY` clause for a
sort parameter (`"oldest"` falls through to the default). -/
def orderByClause (sort : String) : String :=
  match sort with
  | "newest" => "ORDER BY year_start DESC, title ASC"
  | "large" => "ORDER BY chapters_count DESC, title ASC"
  | "small" => "ORDER BY chapters_count ASC, title ASC"
  | "alphabet" => "ORDER BY regexp_replace(lower(title), \x27[^а-яё]\x27, \x27\x27, \x27g\x27) ASC"
  | "created" => "ORDER BY created_at DESC"
  | _ => "ORDER BY year_start ASC, title ASC"

/-- The `baseQuery` of `GetNovels`. -/
def novelsBaseQuery : String :=
  "SELECT id, title, title_en, author, year_start, year_end, status, description, age_rating, cover_url, created_at FROM novels"

/-- `finalQuery`: the only way the sort parameter reaches the SQL text
is through `orderByClause`. -/
def novelsFinalQuery (sort : String) : String :=
  novelsBaseQuery ++ " " ++ orderByClause sort ++ " LIMIT $1 OFFSET $2"

/-- The six supported sort keys (the `enum` of `GetNovelsInput` in
`internal/api/handlers.go`). -/
def sortKeys : List String :=
  ["newest", "oldest", "large", "small", "alphabet", "created"]

/-! ## Display-name validation (`internal/data/users.go`)

`ValidateDisplayName` first runs `bluemonday.StrictPolicy().Sanitize`,
which drops every HTML tag and keeps (entity-escaped) text. `stripTags`
models its tag stripping with the HTML tokenizer's rules: `<` opens a
tag only when followed by an ASCII letter, `/`, `!` or `?`, the tag
runs to the next `>` and is dropped (an unterminated tag is dropped at
end of input), and every other character is text. Entity escaping is
not modelled: an escapable character (ampersand, angle bracket or
quote) in the text makes both
the real sanitizer's output and this model's output fail the final
letters/digits/spaces character-class check, so acceptance, rejection
and the accepted value agree. The Unicode classes `\p{L}`/`\p{N}` of
`displayNameRegex` are the parameters `isL`/`isN`. -/

/-- Whether a character after `<` starts an HTML tag for the tokenizer. -/
def isTagStart (c : Char) : Bool :=
  ('a' ≤ c && c ≤ 'z') || ('A' ≤ c && c ≤ 'Z') || c = '/' || c = '!' || c = '?'

/-- Tag stripping of `bluemonday.StrictPolicy().Sanitize` (see the
section comment); the `Bool` is the in-tag state. -/
def stripTagsAux : Bool → List Char → List Char
  | _, [] => []
  | true, c :: cs =>
      if c = '>' then stripTagsAux false cs else stripTagsAux true cs
  | false, c :: cs =>
      if c = '<' then
        match cs with
        | [] => [c]
        | d :: _ =>
            if isTagStart d then stripTagsAux true cs
            else c :: stripTagsAux false cs
      else c :: stripTagsAux false cs

/-- `strictPolicy.Sanitize` restricted to tag stripping. -/
def stripTags (cs : List Char) : List Char :=
  stripTagsAux false cs

/-- `multiSpaceRegex.ReplaceAllString(name, " ")`, character by
character; the `Bool` records whether the previous character belonged
to a whitespace run already replaced by its single space. -/
def collapseSpacesAux : Bool → List Char → List Char
  | _, [] => []
  | inSpace, c :: cs =>
      if isGoRegexSpace c then
        if inSpace then collapseSpacesAux true cs
        else ' ' :: collapseSpacesAux true cs
      else
        c :: collapseSpacesAux false cs

/-- `multiSpaceRegex.ReplaceAllString(name, " ")`: replace every run of
`\s` characters by a single ASCII space. -/
def collapseSpaces (l : List Char) : List Char :=
  collapseSpacesAux false l

/-- The failure modes of `ValidateDisplayName`, in check order. -/
inductive NameError where
  | empty
  | tooLong
  | invalidChars
  deriving DecidableEq, Repr

/-- The cleaned name: sanitize, collapse whitespace runs, trim. -/
def cleanDisplayName (name : String) : String :=
  goTrimSpace (String.mk (collapseSpaces (stripTags name.data)))

/-- One character of the class `[\p{L}\p{N} ]` of `displayNameRegex`,
with the Unicode letter and number classes as parameters. -/
def displayNameChar (isL isN : Char → Bool) (c : Char) : Bool :=
  isL c || isN c || c = ' '

/-- `ValidateDisplayName`: clean, then reject an empty result
(`len(name) == 0`), more than 15 code points (`len([]rune(name))`), or
a character outside `displayNameRegex`; otherwise return the cleaned
name. -/
def ValidateDisplayName (isL isN : Char → Bool) (name : String) :
    Except NameError String :=
  let cleaned := cleanDisplayName name
  if goLen cleaned = 0 then .error .empty
  else if cleaned.data.length > 15 then .error .tooLong
  else if !(cleaned.data.all (displayNameChar isL isN)) then
    .error .invalidChars
  else .ok cleaned

/-! ## Theorems -/

/-- C6: for every sort parameter value, the novel-listing query's
`ORDER BY` clause is drawn from the fixed allow-list of the six
supported sort orders, any value outside the six sort keys maps to the
default (oldest) ordering, and the final SQL text depends on the sort
input only through this fixed mapping. -/
theorem getNovels_orderBy_allowlist (sort : String) :
    orderByClause sort ∈
      ["ORDER BY year_start DESC, title ASC",
       "ORDER BY year_start ASC, title ASC",
       "ORDER BY chapters_count DESC, title ASC",
       "ORDER BY chapters_count ASC, title ASC",
       "ORDER BY regexp_replace(lower(title), \x27[^а-яё]\x27, \x27\x27, \x27g\x27) ASC",
       "ORDER BY created_at DESC"] ∧
    (sort ∉ sortKeys → orderByClause sort = orderByClause "oldest") ∧
    novelsFinalQuery sort =
      novelsBaseQuery ++ " " ++ orderByClause sort ++ " LIMIT $1 OFFSET $2" := by
  refine ⟨?_, ?_, rfl⟩
  · unfold orderByClause
    split <;> simp
  · intro h
    unfold orderByClause
    split <;> simp_all [sortKeys]

/-- Witness for `getNovels_orderBy_allowlist` at the out-of-list sort
value `"zzz"`. -/
theorem getNovels_orderBy_allowlist_witness :
    orderByClause "zzz" ∈
      ["ORDER BY year_start DESC, title ASC",
       "ORDER BY year_start ASC, title ASC",
       "ORDER BY chapters_count DESC, title ASC",
       "ORDER BY chapters_count ASC, title ASC",
       "ORDER BY regexp_replace(lower(title), \x27[^а-яё]\x27, \x27\x27, \x27g\x27) ASC",
       "ORDER BY created_at DESC"] ∧
    orderByClause "zzz" = orderByClause "oldest" :=
  ⟨(getNovels_orderBy_allowlist "zzz").1,
   (getNovels_orderBy_allowlist "zzz").2.1 (by decide)⟩

/-- A key that misses now keeps missing at any later instant (the entry
is absent, or its expiration already lies at or before `now`). -/
theorem cacheGet_none_mono {α : Type} (m : CacheMap α) (key : String)
    {now t : Int} (hle : now ≤ t) (h : cacheGet m key now = none) :
    cacheGet m key t = none := by
  unfold cacheGet at h ⊢
  cases hl : cacheLookup m key with
  | none => rfl
  | some it =>
      rw [hl] at h
      dsimp only at h ⊢
      by_cases hexp : it.expiration ≤ now
      · have ht : it.expiration ≤ t := le_trans hexp hle
        simp [ge_iff_le, ht]
      · rw [if_neg hexp] at h
        exact absurd h (by simp)

/-- C9: `Cache.GetOrFetch` never caches failures: on a miss with a
failing fetch it returns the error with the cache map unchanged (so
every later `Get` of the key still misses), and on a fresh hit it
returns the cached value with the map unchanged, independently of the
fetch outcome. -/
theorem getOrFetch_spec {α ε : Type} (m : CacheMap α) (key : String)
    (duration : Int) (fetchResult : Except ε α) (now : Int) :
    (∀ e, cacheGet m key now = none → fetchResult = .error e →
        getOrFetch m key duration fetchResult now = (.error e, m) ∧
        ∀ t, now ≤ t → cacheGet m key t = none) ∧
    (∀ v, cacheGet m key now = some v →
        getOrFetch m key duration fetchResult now = (.ok v, m)) := by
  constructor
  · intro e hmiss herr
    refine ⟨?_, fun t ht => cacheGet_none_mono m key ht hmiss⟩
    unfold getOrFetch
    rw [hmiss, herr]
  · intro v hhit
    unfold getOrFetch
    rw [hhit]

/-- Witness for `getOrFetch_spec`: an expired entry with a failing
fetch is reported as an error and stays out of the cache, and a fresh
entry is served from the cache. -/
theorem getOrFetch_spec_witness :
    getOrFetch [("k", ⟨5, 10⟩)] "k" 7 (Except.error () : Except Unit Nat) 10 =
      (.error (), [("k", ⟨5, 10⟩)]) ∧
    cacheGet ([("k", ⟨5, 10⟩)] : CacheMap Nat) "k" 11 = none ∧
    getOrFetch [("k", ⟨5, 20⟩)] "k" 7 (Except.error () : Except Unit Nat) 10 =
      (.ok 5, [("k", ⟨5, 20⟩)]) :=
  ⟨((getOrFetch_spec [("k", ⟨5, 10⟩)] "k" 7 (Except.error ()) 10).1 () rfl rfl).1,
   ((getOrFetch_spec [("k", ⟨5, 10⟩)] "k" 7 (Except.error ()) 10).1 () rfl rfl).2
     11 (by decide),
   (getOrFetch_spec [("k", ⟨5, 20⟩)] "k" 7 (Except.error ()) 10).2 5 rfl⟩

/-- Assignment stores the value at its key. -/
theorem cLookup_cInsert_self (m : CookieMap) (k : String) (v : CookieValue) :
    cLookup (cInsert m k v) k = some v := by
  simp [cInsert, cLookup]

/-- Filtering out a different key does not change a lookup. -/
theorem cLookup_filter_ne (m : CookieMap) (k k' : String) (h : k' ≠ k) :
    cLookup (List.filter (fun p => p.1 ≠ k) m) k' = cLookup m k' := by
  induction m with
  | nil => rfl
  | cons p rest ih =>
      obtain ⟨a, v⟩ := p
      rw [List.filter_cons]
      by_cases hp : a = k
      · rw [if_neg (by simp [hp])]
        rw [ih]
        simp only [cLookup]
        rw [if_neg (fun hc : a = k' => h (hp ▸ hc).symm)]
      · rw [if_pos (by simp [hp])]
        simp only [cLookup]
        by_cases hk' : a = k'
        · rw [if_pos hk', if_pos hk']
        · rw [if_neg hk', if_neg hk', ih]

/-- Assignment does not change the lookup of another key. -/
theorem cLookup_cInsert_ne (m : CookieMap) (k : String) (v : CookieValue)
    (k' : String) (h : k' ≠ k) :
    cLookup (cInsert m k v) k' = cLookup m k' := by
  simp only [cInsert, cLookup]
  rw [if_neg (fun hc => h hc.symm)]
  exact cLookup_filter_ne m k k' h

/-- One merge-loop iteration only changes the entry of its own key. -/
theorem cLookup_mergeStep_ne (result : CookieMap) (name : String)
    (cv : CookieValue) (k : String) (h : k ≠ name) :
    cLookup (mergeStep result name cv) k = cLookup result k := by
  unfold mergeStep
  cases cLookup result name with
  | none => exact cLookup_cInsert_ne result name cv k h
  | some ex =>
      dsimp only
      split
      · exact cLookup_cInsert_ne result name cv k h
      · rfl

/-- One merge-loop iteration gives its own key last-write-wins
semantics against the accumulator. -/
theorem cLookup_mergeStep_self (result : CookieMap) (name : String)
    (cv : CookieValue) :
    cLookup (mergeStep result name cv) name =
      match cLookup result name with
      | none => some cv
      | some ex => some (if cv.updatedAt > ex.updatedAt then cv else ex) := by
  unfold mergeStep
  cases h : cLookup result name with
  | none => exact cLookup_cInsert_self result name cv
  | some ex =>
      dsimp only
      split
      · exact cLookup_cInsert_self result name cv
      · exact h

/-- A key outside an association list's key set looks up to `none`. -/
theorem cLookup_eq_none_of_not_mem (m : CookieMap) (k : String)
    (h : k ∉ m.map Prod.fst) : cLookup m k = none := by
  induction m with
  | nil => rfl
  | cons p rest ih =>
      obtain ⟨a, v⟩ := p
      simp only [List.map_cons, List.mem_cons] at h
      push_neg at h
      obtain ⟨h1, h2⟩ := h
      simp only [cLookup]
      rw [if_neg (fun hc : a = k => h1 hc.symm)]
      exact ih h2

/-- The merge fold, looked up at any key: the incoming entry for the
key (unique, by map-key distinctness) is merged last-write-wins against
the accumulator; keys the incoming map lacks keep the accumulator's
entry. -/
theorem cLookup_mergeFold (incoming : CookieMap) :
    ∀ (result : CookieMap), (incoming.map Prod.fst).Nodup → ∀ k,
      cLookup (incoming.foldl (fun r p => mergeStep r p.1 p.2) result) k =
        match cLookup incoming k with
        | none => cLookup result k
        | some inc =>
            match cLookup result k with
            | none => some inc
            | some ex => some (if inc.updatedAt > ex.updatedAt then inc else ex) := by
  induction incoming with
  | nil => intro result _ k; rfl
  | cons p rest ih =>
      obtain ⟨a, cv⟩ := p
      intro result hnd k
      simp only [List.map_cons, List.nodup_cons] at hnd
      obtain ⟨hmem, hnd2⟩ := hnd
      rw [List.foldl_cons, ih (mergeStep result a cv) hnd2 k]
      by_cases hk : k = a
      · subst hk
        rw [cLookup_eq_none_of_not_mem rest k hmem]
        simp only [cLookup, if_pos rfl]
        exact cLookup_mergeStep_self result k cv
      · simp only [cLookup]
        rw [if_neg (fun hc : a = k => hk hc.symm)]
        rw [cLookup_mergeStep_ne result a cv k hk]

/-- C3: `mergeCookies` keeps, for a key present in both maps, the
incoming value iff its client-supplied `updated_at` is strictly greater
than the existing entry's (otherwise the existing value), and a key
present in only one of the two maps passes through unchanged. -/
theorem mergeCookies_spec (existing incoming : CookieMap)
    (hnd : (incoming.map Prod.fst).Nodup) (k : String) :
    (∀ ex inc, cLookup existing k = some ex → cLookup incoming k = some inc →
        cLookup (mergeCookies existing incoming) k =
          some (if inc.updatedAt > ex.updatedAt then inc else ex)) ∧
    (cLookup incoming k = none →
        cLookup (mergeCookies existing incoming) k = cLookup existing k) ∧
    (cLookup existing k = none →
        cLookup (mergeCookies existing incoming) k = cLookup incoming k) := by
  have hfold := cLookup_mergeFold incoming existing hnd k
  refine ⟨?_, ?_, ?_⟩
  · intro ex inc hex hinc
    rw [mergeCookies, hfold, hinc, hex]
  · intro hinc
    rw [mergeCookies, hfold, hinc]
  · intro hex
    rw [mergeCookies, hfold, hex]
    cases cLookup incoming k <;> rfl

/-- Witness for `mergeCookies_spec` on concrete maps: a newer incoming
entry wins, a key only in `existing` passes through, a key only in
`incoming` passes through. -/
theorem mergeCookies_spec_witness :
    cLookup (mergeCookies [("a", ⟨"1", 5⟩), ("b", ⟨"2", 5⟩)]
        [("a", ⟨"3", 6⟩), ("c", ⟨"4", 1⟩)]) "a" = some ⟨"3", 6⟩ ∧
    cLookup (mergeCookies [("a", ⟨"1", 5⟩), ("b", ⟨"2", 5⟩)]
        [("a", ⟨"3", 6⟩), ("c", ⟨"4", 1⟩)]) "b" = some ⟨"2", 5⟩ ∧
    cLookup (mergeCookies [("a", ⟨"1", 5⟩), ("b", ⟨"2", 5⟩)]
        [("a", ⟨"3", 6⟩), ("c", ⟨"4", 1⟩)]) "c" = some ⟨"4", 1⟩ := by
  refine ⟨?_, ?_, ?_⟩
  · have h := (mergeCookies_spec [("a", ⟨"1", 5⟩), ("b", ⟨"2", 5⟩)]
      [("a", ⟨"3", 6⟩), ("c", ⟨"4", 1⟩)] (by decide) "a").1 ⟨"1", 5⟩ ⟨"3", 6⟩
      rfl rfl
    simpa using h
  · exact (mergeCookies_spec [("a", ⟨"1", 5⟩), ("b", ⟨"2", 5⟩)]
      [("a", ⟨"3", 6⟩), ("c", ⟨"4", 1⟩)] (by decide) "b").2.1 rfl
  · exact (mergeCookies_spec [("a", ⟨"1", 5⟩), ("b", ⟨"2", 5⟩)]
      [("a", ⟨"3", 6⟩), ("c", ⟨"4", 1⟩)] (by decide) "c").2.2 rfl

/-- Dropping the invalid entries is idempotent. -/
theorem validateCookies_idem (cookies : CookieMap) :
    validateCookies (validateCookies cookies) = validateCookies cookies := by
  unfold validateCookies
  rw [List.filter_filter]
  simp

/-- C10: `SyncCookies` silently drops invalid incoming entries rather
than failing: it behaves identically on the raw incoming map and on its
validated restriction, and for an authenticated profile it succeeds and
persists exactly the merge of the stored bag with the valid incoming
entries. -/
theorem syncCookies_drops_invalid (db : List UserRow)
    (profileID secretToken : String) (cookies : CookieMap) :
    SyncCookies db profileID secretToken cookies =
      SyncCookies db profileID secretToken (validateCookies cookies) ∧
    (∀ u, db.find? (fun v => v.id == profileID) = some u →
      u.secretToken = secretToken →
      SyncCookies db profileID secretToken cookies =
        some (db.map (fun v => if v.id == profileID then
            { v with cookies := mergeCookies u.cookies (validateCookies cookies) }
            else v),
          mergeCookies u.cookies (validateCookies cookies))) := by
  constructor
  · simp only [SyncCookies, validateCookies_idem]
  · intro u hfind htok
    have hver : verifySecretToken db profileID secretToken = true := by
      unfold verifySecretToken
      rw [hfind]
      dsimp only
      rw [htok]
      simp
    simp only [SyncCookies, hver, if_true, hfind]

/-- Witness for `syncCookies_drops_invalid`: one valid and one invalid
incoming entry against a stored bag; the call succeeds and persists the
merge with only the valid entry. -/
theorem syncCookies_drops_invalid_witness :
    SyncCookies
        [{ id := "usr_1", secretToken := "tok", displayName := "n",
           avatarSeed := "s", createdAt := 0,
           cookies := [("kappalib_theme", ⟨"dark", 1⟩)],
           syncCode := none, syncCodeExpiresAt := none }]
        "usr_1" "tok"
        [("kappalib_theme", ⟨"light", 2⟩), ("bad name!", ⟨"x", 9⟩)] =
      some
        ([{ id := "usr_1", secretToken := "tok", displayName := "n",
            avatarSeed := "s", createdAt := 0,
            cookies := mergeCookies [("kappalib_theme", ⟨"dark", 1⟩)]
              (validateCookies
                [("kappalib_theme", ⟨"light", 2⟩), ("bad name!", ⟨"x", 9⟩)]),
            syncCode := none, syncCodeExpiresAt := none }],
         mergeCookies [("kappalib_theme", ⟨"dark", 1⟩)]
           (validateCookies
             [("kappalib_theme", ⟨"light", 2⟩), ("bad name!", ⟨"x", 9⟩)])) := by
  have h := (syncCookies_drops_invalid
      [{ id := "usr_1", secretToken := "tok", displayName := "n",
         avatarSeed := "s", createdAt := 0,
         cookies := [("kappalib_theme", ⟨"dark", 1⟩)],
         syncCode := none, syncCodeExpiresAt := none }]
      "usr_1" "tok"
      [("kappalib_theme", ⟨"light", 2⟩), ("bad name!", ⟨"x", 9⟩)]).2
      { id := "usr_1", secretToken := "tok", displayName := "n",
        avatarSeed := "s", createdAt := 0,
        cookies := [("kappalib_theme", ⟨"dark", 1⟩)],
        syncCode := none, syncCodeExpiresAt := none } rfl rfl
  simpa using h

/-- C4 (amended): `CreateComment` fails with `InvalidLength` exactly
when the submitted content is empty or longer than 1000 UTF-8 bytes
(Go's `len` on a string); for every content between 1 and 1000 bytes
the length check passes and the pipeline proceeds. -/
theorem createComment_invalidLength_iff (env : CommentsEnv)
    (st : CommentsState) (profileID secretToken : String)
    (input : CreateCommentInput) :
    (CreateComment env st profileID secretToken input).1 =
        .error .invalidLength ↔
      (goLen input.content = 0 ∨ goLen input.content > 1000) := by
  unfold CreateComment
  dsimp only
  split_ifs with h1 h2 h3 h4 h5 h6 <;> simp_all

/-- Counterexample to C4 as stated: a comment of 501 Cyrillic
characters is between 1 and 1000 characters, yet `CreateComment`
rejects it with `InvalidLength` (its UTF-8 byte length is 1002). -/
theorem createComment_length_claim_counterexample :
    (String.mk (List.replicate 501 'ё')).length = 501 ∧
    (CreateComment
        { now := 0, captchaOk := fun _ => true, chapters := ["ch_1"],
          users := [], insertOk := true, newCommentId := "cmt_1",
          render := fun s => s }
        { lastComment := [], comments := [] } "usr_1" "tok"
        { chapterId := "ch_1",
          content := String.mk (List.replicate 501 'ё'),
          turnstileToken := "t" }).1 = .error .invalidLength := by
  have hc : charUtf8Size 'ё' = 2 := by decide
  have hlen : goLen (String.mk (List.replicate 501 'ё')) = 1002 := by
    show (List.map charUtf8Size (List.replicate 501 'ё')).sum = 1002
    rw [List.map_replicate, hc, List.sum_replicate, smul_eq_mul]
  constructor
  · show (List.replicate 501 'ё').length = 501
    exact List.length_replicate 501 'ё'
  · have hcond : (decide (goLen (String.mk (List.replicate 501 'ё')) = 0) ||
        decide (goLen (String.mk (List.replicate 501 'ё')) > 1000)) = true := by
      rw [hlen]
      decide
    unfold CreateComment
    rw [if_pos hcond]

/-- C8: a `CreateComment` call that returns an error leaves the
per-author cooldown map unchanged — a failed submission never starts or
extends the author's cooldown window. -/
theorem createComment_error_keeps_cooldown (env : CommentsEnv)
    (st : CommentsState) (profileID secretToken : String)
    (input : CreateCommentInput) (e : CommentError)
    (h : (CreateComment env st profileID secretToken input).1 = .error e) :
    ((CreateComment env st profileID secretToken input).2).lastComment =
      st.lastComment := by
  unfold CreateComment at h ⊢
  dsimp only at h ⊢
  split_ifs at h ⊢ <;> simp_all

/-- Witness for `createComment_error_keeps_cooldown`: an empty comment
is rejected and an existing cooldown entry survives untouched. -/
theorem createComment_error_keeps_cooldown_witness :
    ((CreateComment
        { now := 0, captchaOk := fun _ => true, chapters := ["ch_1"],
          users := [], insertOk := true, newCommentId := "cmt_1",
          render := fun s => s }
        { lastComment := [("usr_1", -100)], comments := [] }
        "usr_1" "tok"
        { chapterId := "ch_1", content := "", turnstileToken := "t" }).2).lastComment =
      [("usr_1", -100)] :=
  createComment_error_keeps_cooldown
    { now := 0, captchaOk := fun _ => true, chapters := ["ch_1"],
      users := [], insertOk := true, newCommentId := "cmt_1",
      render := fun s => s }
    { lastComment := [("usr_1", -100)], comments := [] }
    "usr_1" "tok"
    { chapterId := "ch_1", content := "", turnstileToken := "t" }
    .invalidLength rfl

/-- The modelled status update leaves every non-pending row as it is. -/
theorem applyStatusUpdate_of_terminal (status commentID : String)
    (r : CommentRow) (hterm : r.status = "approved" ∨ r.status = "rejected") :
    applyStatusUpdate status commentID r = r := by
  unfold applyStatusUpdate
  have hne : (r.status == "pending") = false := by
    cases hterm with
    | inl h => rw [h]; rfl
    | inr h => rw [h]; rfl
  rw [hne, Bool.and_false, if_neg (by simp)]

/-- The moderation callback either leaves the table alone or maps the
modelled status update over it. -/
theorem handleModerationCallback_cases (db : List CommentRow)
    (action commentID : String) :
    handleModerationCallback db action commentID = db ∨
    ∃ status, handleModerationCallback db action commentID =
      db.map (applyStatusUpdate status commentID) := by
  unfold handleModerationCallback UpdateCommentStatus
    runUpdateCommentStatusQuery
  split_ifs <;> first
    | exact Or.inl rfl
    | (dsimp only; exact Or.inr ⟨"approved", rfl⟩)
    | (dsimp only; exact Or.inr ⟨"rejected", rfl⟩)

/-- C2: approved and rejected are terminal: the moderation callback
(for any action and any target comment id) never changes a comment row
that is already approved or rejected — the row keeps its exact position
and contents. -/
theorem commentStatus_terminal (db : List CommentRow)
    (action commentID : String) (i : Nat) (r : CommentRow)
    (hget : db.get? i = some r)
    (hterm : r.status = "approved" ∨ r.status = "rejected") :
    (handleModerationCallback db action commentID).get? i = some r := by
  cases handleModerationCallback_cases db action commentID with
  | inl h => rw [h, hget]
  | inr h =>
      obtain ⟨status, h⟩ := h
      rw [h, List.get?_eq_getElem?, List.getElem?_map,
        ← List.get?_eq_getElem?, hget, Option.map_some',
        applyStatusUpdate_of_terminal status commentID r hterm]

/-- Witness for `commentStatus_terminal`: a `reject` callback aimed at
an already-approved comment leaves it approved. -/
theorem commentStatus_terminal_witness :
    (handleModerationCallback
        [{ id := "cmt_1", chapterId := "ch_1", userId := "usr_1",
           contentHtml := "<p>x</p>", status := "approved" }]
        "reject" "cmt_1").get? 0 =
      some { id := "cmt_1", chapterId := "ch_1", userId := "usr_1",
             contentHtml := "<p>x</p>", status := "approved" } :=
  commentStatus_terminal
    [{ id := "cmt_1", chapterId := "ch_1", userId := "usr_1",
       contentHtml := "<p>x</p>", status := "approved" }]
    "reject" "cmt_1" 0
    { id := "cmt_1", chapterId := "ch_1", userId := "usr_1",
      contentHtml := "<p>x</p>", status := "approved" }
    rfl (Or.inl rfl)

/-- Every character occupies at least one UTF-8 byte. -/
theorem charUtf8Size_pos (c : Char) : 0 < charUtf8Size c := by
  unfold charUtf8Size
  split_ifs <;> norm_num

/-- A Go string has byte length zero exactly when it has no characters. -/
theorem goLen_eq_zero_iff (s : String) : goLen s = 0 ↔ s.data = [] := by
  unfold goLen
  cases h : s.data with
  | nil => simp
  | cons c cs =>
      have hpos := charUtf8Size_pos c
      simp only [List.map_cons, List.sum_cons]
      constructor
      · intro hc
        exact absurd hc (by omega)
      · intro hc
        exact absurd hc (by simp)

/-- A string equals the empty literal exactly when its character list
is empty. -/
theorem string_eq_empty_iff (s : String) : s = "" ↔ s.data = [] := by
  constructor
  · intro h
    rw [h]
  · intro h
    cases s with
    | mk d => cases h; rfl

/-- C5: display-name validation first cleans the input (strip markup,
collapse whitespace runs, trim) and then accepts exactly the cleaned
names that are nonempty, at most 15 code points long and made of
letters/digits/spaces; in particular a cleaned all-letter name of
exactly 15 code points is accepted and a cleaned name of 16 code
points is rejected. -/
theorem validateDisplayName_spec (isL isN : Char → Bool) (name : String) :
    ((ValidateDisplayName isL isN name).isOk = true ↔
      (cleanDisplayName name ≠ "" ∧
       (cleanDisplayName name).data.length ≤ 15 ∧
       ∀ c ∈ (cleanDisplayName name).data, displayNameChar isL isN c = true)) ∧
    ((cleanDisplayName name).data.length = 15 →
      (∀ c ∈ (cleanDisplayName name).data, isL c = true) →
      (ValidateDisplayName isL isN name).isOk = true) ∧
    ((cleanDisplayName name).data.length = 16 →
      (ValidateDisplayName isL isN name).isOk = false) := by
  have hmain : (ValidateDisplayName isL isN name).isOk = true ↔
      (cleanDisplayName name ≠ "" ∧
       (cleanDisplayName name).data.length ≤ 15 ∧
       ∀ c ∈ (cleanDisplayName name).data, displayNameChar isL isN c = true) := by
    unfold ValidateDisplayName
    dsimp only
    split_ifs with h1 h2 h3
    · rw [goLen_eq_zero_iff] at h1
      refine iff_of_false (by decide) ?_
      intro hc
      exact hc.1 ((string_eq_empty_iff _).mpr h1)
    · refine iff_of_false (by decide) ?_
      intro hc
      exact absurd hc.2.1 (by omega)
    · refine iff_of_false (by decide) ?_
      intro hc
      rw [Bool.not_eq_true', List.all_eq_false] at h3
      obtain ⟨c, hcmem, hcfalse⟩ := h3
      have := hc.2.2 c hcmem
      simp_all
    · refine iff_of_true rfl ⟨?_, by omega, ?_⟩
      · rw [Ne, string_eq_empty_iff, ← goLen_eq_zero_iff]
        exact h1
      · rw [Bool.not_eq_true', Bool.not_eq_false] at h3
        exact fun c hc => by
          have := List.all_eq_true.mp h3 c hc
          simpa using this
  refine ⟨hmain, ?_, ?_⟩
  · intro hlen hletters
    refine hmain.mpr ⟨?_, by omega, ?_⟩
    · rw [Ne, string_eq_empty_iff]
      intro hc
      rw [hc] at hlen
      simp at hlen
    · intro c hc
      have := hletters c hc
      simp [displayNameChar, this]
  · intro hlen
    rw [Bool.eq_false_iff, Ne, hmain]
    intro hc
    omega

/-- Witness for `validateDisplayName_spec`: a markup-wrapped 15-letter
name is accepted after tag stripping, and a 16-letter name is
rejected. -/
theorem validateDisplayName_spec_witness :
    (ValidateDisplayName Char.isAlpha Char.isDigit
      "<b>Abcdefghijklmno</b>").isOk = true ∧
    (ValidateDisplayName Char.isAlpha Char.isDigit
      "Abcdefghijklmnop").isOk = false :=
  ⟨(validateDisplayName_spec Char.isAlpha Char.isDigit
      "<b>Abcdefghijklmno</b>").2.1 (by decide) (by decide),
   (validateDisplayName_spec Char.isAlpha Char.isDigit
      "Abcdefghijklmnop").2.2 (by decide)⟩

/-- Dropping a prefix twice is dropping it once. -/
theorem dropWhile_dropWhile {α : Type} (p : α → Bool) (l : List α) :
    (l.dropWhile p).dropWhile p = l.dropWhile p := by
  induction l with
  | nil => rfl
  | cons c cs ih =>
      rw [List.dropWhile_cons]
      split_ifs with h
      · exact ih
      · rw [List.dropWhile_cons, if_neg h]

/-- A trimmed list has no leading whitespace left. -/
theorem dropWhile_trimList (l : List Char) :
    (trimList l).dropWhile isGoSpace = trimList l := by
  unfold trimList
  cases hrc : ((l.dropWhile isGoSpace).reverse.dropWhile isGoSpace).reverse with
  | nil => rfl
  | cons c r' =>
      obtain ⟨t, ht⟩ :=
        List.dropWhile_suffix (l := (l.dropWhile isGoSpace).reverse)
          (p := isGoSpace)
      have h2 : l.dropWhile isGoSpace =
          ((l.dropWhile isGoSpace).reverse.dropWhile isGoSpace).reverse ++
            t.reverse := by
        conv_lhs => rw [← List.reverse_reverse (l.dropWhile isGoSpace), ← ht]
        rw [List.reverse_append]
      have hmc : l.dropWhile isGoSpace = c :: (r' ++ t.reverse) := by
        rw [h2, hrc]
        rfl
      have hpc : isGoSpace c = false := by
        have hnot := List.head?_dropWhile_not isGoSpace l
        rw [hmc] at hnot
        simpa using hnot
      rw [List.dropWhile_cons, hpc]
      simp

/-- Trimming is idempotent. -/
theorem trimList_idem (l : List Char) :
    trimList (trimList l) = trimList l := by
  conv_lhs => rw [trimList, dropWhile_trimList]
  rw [trimList, List.reverse_reverse, dropWhile_dropWhile]

/-- Trimming commutes with a character map that preserves
whitespace-ness. -/
theorem trimList_map (f : Char → Char)
    (hp : ∀ c, isGoSpace (f c) = isGoSpace c) (l : List Char) :
    trimList (l.map f) = (trimList l).map f := by
  have hcomp : (isGoSpace ∘ f) = isGoSpace := funext hp
  unfold trimList
  rw [List.dropWhile_map, hcomp, ← List.map_reverse, List.dropWhile_map,
    hcomp, ← List.map_reverse]

/-- The ASCII case mapping is idempotent. -/
theorem charToUpper_idem (c : Char) :
    charToUpper (charToUpper c) = charToUpper c := by
  unfold charToUpper
  cases hf : azPairs.find? (fun p => p.1 == c) with
  | none => rw [hf]
  | some p =>
      have hmem : p ∈ azPairs := List.mem_of_find?_eq_some hf
      have hnone : ∀ q ∈ azPairs,
          azPairs.find? (fun x => x.1 == q.2) = none := by decide
      rw [hnone p hmem]

/-- The ASCII case mapping never changes whether a character is
whitespace. -/
theorem isGoSpace_charToUpper (c : Char) :
    isGoSpace (charToUpper c) = isGoSpace c := by
  unfold charToUpper
  cases hf : azPairs.find? (fun p => p.1 == c) with
  | none => rfl
  | some p =>
      have hmem : p ∈ azPairs := List.mem_of_find?_eq_some hf
      have hpair : ∀ q ∈ azPairs,
          isGoSpace q.1 = false ∧ isGoSpace q.2 = false := by decide
      have hc : p.1 = c := by
        have := List.find?_some hf
        simpa using this
      rw [(hpair p hmem).2, ← hc, (hpair p hmem).1]

/-- The sync-code normalization (trim, then uppercase) is idempotent. -/
theorem loginNormalize_idem (s : String) :
    loginNormalize (loginNormalize s) = loginNormalize s := by
  show goToUpper (goTrimSpace (goToUpper (goTrimSpace s))) =
    goToUpper (goTrimSpace s)
  unfold goToUpper goTrimSpace
  congr 1
  show (trimList ((trimList s.data).map charToUpper)).map charToUpper =
    (trimList s.data).map charToUpper
  rw [trimList_map charToUpper isGoSpace_charToUpper, trimList_idem,
    List.map_map]
  exact List.map_congr_left (fun c _ => charToUpper_idem c)

/-- Counterexample to C7 as stated: the normalized form of an all-
Cyrillic input is exactly 8 characters long, so by the claim the
length requirement passes and, with no stored row matching, the call
should fail with `InvalidOrExpired`; the code instead checks Go
`len` (16 UTF-8 bytes here) and returns the format error without any
store query. -/
theorem loginWithSyncCode_length_claim_counterexample :
    (loginNormalize "фффффффф").length = 8 ∧
    (LoginWithSyncCode [] 0 "фффффффф").1 = .error .invalidFormat ∧
    (LoginWithSyncCode [] 0 "фффффффф").1 ≠ .error .invalidOrExpired := by
  refine ⟨by decide, rfl, ?_⟩
  intro h
  rw [show (LoginWithSyncCode ([] : List UserRow) 0 "фффффффф").1 =
    Except.error SyncError.invalidFormat from rfl] at h
  exact SyncError.noConfusion (Except.error.inj h)

/-- C7 (amended): `LoginWithSyncCode` first normalizes the raw input by
trimming and uppercasing — so it behaves identically on an input and on
its normalized form — requires the normalized code to be exactly 8
UTF-8 bytes (Go `len`) long before any store access (the result is
fixed for every table state), and fails with `InvalidOrExpired`
whenever the 8-byte requirement holds but no stored row carries a
matching, unexpired sync code. -/
theorem loginWithSyncCode_normalizes (db : List UserRow) (now : Int)
    (s : String) :
    LoginWithSyncCode db now s = LoginWithSyncCode db now (loginNormalize s) ∧
    (goLen (loginNormalize s) ≠ 8 →
      LoginWithSyncCode db now s = (.error .invalidFormat, db)) ∧
    (goLen (loginNormalize s) = 8 →
      db.find? (syncCodeMatches now (loginNormalize s)) = none →
      (LoginWithSyncCode db now s).1 = .error .invalidOrExpired) := by
  have hidem := loginNormalize_idem s
  refine ⟨?_, ?_, ?_⟩
  · unfold LoginWithSyncCode
    rw [hidem]
  · intro h
    unfold LoginWithSyncCode
    dsimp only
    rw [if_pos h]
  · intro h8 hnone
    unfold LoginWithSyncCode
    dsimp only
    rw [if_neg (fun hc => hc h8), hnone]

/-- Witness for `loginWithSyncCode_normalizes`: a short input fails the
format check on any table, and a padded lowercase 8-character input is
normalized but finds no matching row in an empty table. -/
theorem loginWithSyncCode_normalizes_witness :
    LoginWithSyncCode [] 0 "abc" = (.error .invalidFormat, []) ∧
    (LoginWithSyncCode [] 0 " ab12cd34 ").1 = .error .invalidOrExpired :=
  ⟨(loginWithSyncCode_normalizes [] 0 "abc").2.1 (by decide),
   (loginWithSyncCode_normalizes [] 0 " ab12cd34 ").2.2 (by decide) rfl⟩

/-- `find?` only depends on the predicate's values on the list. -/
theorem find?_congr_mem {α : Type} (l : List α) (p q : α → Bool)
    (h : ∀ a ∈ l, p a = q a) : l.find? p = l.find? q := by
  induction l with
  | nil => rfl
  | cons a as ih =>
      have ha := h a (List.mem_cons_self a as)
      by_cases hpa : p a = true
      · rw [List.find?_cons_of_pos as hpa, List.find?_cons_of_pos as (ha ▸ hpa)]
      · rw [List.find?_cons_of_neg as hpa, List.find?_cons_of_neg as (ha ▸ hpa),
          ih (fun b hb => h b (List.mem_cons_of_mem a hb))]

/-- `dropWhile` keeps a list whose members all fail the predicate. -/
theorem dropWhile_eq_self_of_all {α : Type} (p : α → Bool) (l : List α)
    (h : ∀ c ∈ l, p c = false) : l.dropWhile p = l := by
  cases l with
  | nil => rfl
  | cons c cs =>
      rw [List.dropWhile_cons,
        if_neg (by simp [h c (List.mem_cons_self c cs)])]

/-- Trimming keeps a list without whitespace characters. -/
theorem trimList_eq_self_of_all (l : List Char)
    (h : ∀ c ∈ l, isGoSpace c = false) : trimList l = l := by
  unfold trimList
  rw [dropWhile_eq_self_of_all _ l h,
    dropWhile_eq_self_of_all _ l.reverse
      (fun c hc => h c (List.mem_reverse.mp hc)),
    List.reverse_reverse]

/-- Every sync-alphabet symbol is a non-whitespace, one-byte character
fixed by the case mapping. -/
theorem syncAlphabet_char_props : ∀ c ∈ syncAlphabet,
    isGoSpace c = false ∧ charToUpper c = c ∧ charUtf8Size c = 1 := by
  decide

/-- Every character of a generated sync code is an alphabet symbol. -/
theorem generateSyncCode_mem (f : Fin 8 → Fin 32) :
    ∀ c ∈ (generateSyncCode f).data, c ∈ syncAlphabet := by
  intro c hc
  rw [show (generateSyncCode f).data =
    (List.finRange 8).map
      (fun i => syncAlphabet.get (Fin.cast rfl (f i))) from rfl] at hc
  rw [List.mem_map] at hc
  obtain ⟨i, _, hi⟩ := hc
  rw [← hi]
  exact List.get_mem syncAlphabet _ _

/-- A generated sync code is already normalized. -/
theorem loginNormalize_generateSyncCode (f : Fin 8 → Fin 32) :
    loginNormalize (generateSyncCode f) = generateSyncCode f := by
  unfold loginNormalize goToUpper goTrimSpace
  rw [trimList_eq_self_of_all _
    (fun c hc => (syncAlphabet_char_props c (generateSyncCode_mem f c hc)).1)]
  rw [List.map_congr_left
    (fun c hc => (syncAlphabet_char_props c (generateSyncCode_mem f c hc)).2.1 :
      ∀ c ∈ (generateSyncCode f).data, charToUpper c = id c)]
  rw [List.map_id']

/-- A generated sync code is 8 bytes long. -/
theorem goLen_generateSyncCode (f : Fin 8 → Fin 32) :
    goLen (generateSyncCode f) = 8 := by
  unfold goLen
  have hlen : (generateSyncCode f).data.length = 8 := by
    show ((List.finRange 8).map _).length = 8
    rw [List.length_map, List.length_finRange]
  rw [List.map_congr_left
    (fun c hc => (syncAlphabet_char_props c (generateSyncCode_mem f c hc)).2.2 :
      ∀ c ∈ (generateSyncCode f).data, charUtf8Size c = 1),
    List.map_const', hlen, List.sum_replicate, smul_eq_mul, mul_one]

/-- C1: single use of sync codes. When `GenerateSyncCode` issues a
fresh code (fresh: no row of the prior table holds it, the store's
`UNIQUE` constraint), the first `LoginWithCode` presenting that code
before its expiry returns the owning profile, its secret token and its
cookie bag, clears the stored code from the owner's row, and every
subsequent call presenting the same code fails with
`InvalidOrExpired`. -/
theorem syncCode_single_use (db : List UserRow) (now t : Int)
    (profileID secretToken : String) (f : Fin 8 → Fin 32)
    (expiry : Int) (db₁ : List UserRow)
    (hgen : GenerateSyncCode db now profileID secretToken
      (generateSyncCode f) = some (expiry, db₁))
    (hfresh : ∀ u ∈ db, u.syncCode ≠ some (generateSyncCode f))
    (ht : t < expiry) :
    ∃ u₀, db.find? (fun u => u.id == profileID) = some u₀ ∧
      (LoginWithSyncCode db₁ t (generateSyncCode f)).1 =
        .ok { profileID := u₀.id, displayName := u₀.displayName,
              avatarSeed := u₀.avatarSeed, createdAt := u₀.createdAt,
              secretToken := u₀.secretToken, cookies := u₀.cookies } ∧
      (∀ v ∈ (LoginWithSyncCode db₁ t (generateSyncCode f)).2,
        v.id = profileID → v.syncCode = none ∧ v.syncCodeExpiresAt = none) ∧
      (∀ v ∈ (LoginWithSyncCode db₁ t (generateSyncCode f)).2,
        v.syncCode ≠ some (generateSyncCode f)) ∧
      (∀ t₂, (LoginWithSyncCode
        ((LoginWithSyncCode db₁ t (generateSyncCode f)).2) t₂
        (generateSyncCode f)).1 = .error .invalidOrExpired) := by
  unfold GenerateSyncCode at hgen
  split_ifs at hgen with hver
  rw [Option.some.injEq, Prod.mk.injEq] at hgen
  obtain ⟨hexp, hdb⟩ := hgen
  unfold verifySecretToken at hver
  cases hfind : db.find? (fun u => u.id == profileID) with
  | none =>
      rw [hfind] at hver
      exact absurd hver (by simp)
  | some u₀ =>
  have hu₀id : u₀.id = profileID := by
    have := List.find?_some hfind
    simpa using this
  have hnorm := loginNormalize_generateSyncCode f
  have hlen8 := goLen_generateSyncCode f
  have hcond : ¬(goLen (loginNormalize (generateSyncCode f)) ≠ 8) := by
    rw [hnorm, hlen8]
    omega
  have hpred : ∀ u ∈ db,
      syncCodeMatches t (generateSyncCode f)
        (if u.id == profileID then
          { u with
              syncCode := some (generateSyncCode f),
              syncCodeExpiresAt := some (now + syncCodeTTL) } else u) =
      (u.id == profileID) := by
    intro u hu
    by_cases hid : (u.id == profileID) = true
    · rw [if_pos hid, hid]
      unfold syncCodeMatches
      dsimp only
      have htt : t < now + syncCodeTTL := by rw [hexp]; exact ht
      simp [htt]
    · rw [if_neg hid]
      unfold syncCodeMatches
      rw [(beq_eq_false_iff_ne).mpr (hfresh u hu), Bool.false_and]
      rw [Bool.not_eq_true] at hid
      rw [hid]
  have hfind2 : db₁.find? (syncCodeMatches t (generateSyncCode f)) =
      some { u₀ with
             syncCode := some (generateSyncCode f),
             syncCodeExpiresAt := some (now + syncCodeTTL) } := by
    rw [← hdb, List.find?_map]
    have hcg : db.find? (fun u => syncCodeMatches t (generateSyncCode f)
        (if u.id == profileID then
          { u with
              syncCode := some (generateSyncCode f),
              syncCodeExpiresAt := some (now + syncCodeTTL) } else u)) =
        some u₀ := by
      rw [find?_congr_mem db _ _ hpred]
      exact hfind
    rw [show (syncCodeMatches t (generateSyncCode f) ∘ fun v =>
        if v.id == profileID then
          { v with
              syncCode := some (generateSyncCode f),
              syncCodeExpiresAt := some (now + syncCodeTTL) } else v) =
      fun u => syncCodeMatches t (generateSyncCode f)
        (if u.id == profileID then
          { u with
              syncCode := some (generateSyncCode f),
              syncCodeExpiresAt := some (now + syncCodeTTL) } else u) from rfl]
    rw [hcg, Option.map_some']
    rw [if_pos (by rw [hu₀id, beq_self_eq_true])]
  have hlogin : LoginWithSyncCode db₁ t (generateSyncCode f) =
      (.ok { profileID := u₀.id, displayName := u₀.displayName,
             avatarSeed := u₀.avatarSeed, createdAt := u₀.createdAt,
             secretToken := u₀.secretToken, cookies := u₀.cookies },
       db₁.map (fun v => if v.id == u₀.id then
         { v with syncCode := none, syncCodeExpiresAt := none } else v)) := by
    unfold LoginWithSyncCode
    dsimp only
    rw [if_neg hcond, hnorm, hfind2]
  refine ⟨u₀, rfl, by rw [hlogin], ?_, ?_, ?_⟩
  all_goals rw [hlogin]
  · intro v hv _
    rw [List.mem_map] at hv
    obtain ⟨w, hw, hvw⟩ := hv
    rw [← hdb, List.mem_map] at hw
    obtain ⟨u, hu, hwu⟩ := hw
    by_cases hid : (u.id == profileID) = true
    · rw [if_pos hid] at hwu
      rw [← hwu] at hvw
      rw [if_pos (by rw [hu₀id]; exact hid)] at hvw
      rw [← hvw]
      exact ⟨rfl, rfl⟩
    · exfalso
      rw [if_neg hid] at hwu
      rw [← hwu] at hvw
      rw [if_neg (by rw [hu₀id]; exact hid)] at hvw
      rename_i hvid
      rw [Bool.not_eq_true, beq_eq_false_iff_ne] at hid
      exact hid (by rw [← hvw] at hvid; exact hvid)
  · intro v hv
    rw [List.mem_map] at hv
    obtain ⟨w, hw, hvw⟩ := hv
    rw [← hdb, List.mem_map] at hw
    obtain ⟨u, hu, hwu⟩ := hw
    by_cases hid : (u.id == profileID) = true
    · rw [if_pos hid] at hwu
      rw [← hwu] at hvw
      rw [if_pos (by rw [hu₀id]; exact hid)] at hvw
      rw [← hvw]
      simp
    · rw [if_neg hid] at hwu
      rw [← hwu] at hvw
      rw [if_neg (by rw [hu₀id]; exact hid)] at hvw
      rw [← hvw]
      exact hfresh u hu
  · intro t₂
    have hnone : (db₁.map (fun v => if v.id == u₀.id then
        { v with syncCode := none, syncCodeExpiresAt := none } else v)).find?
        (syncCodeMatches t₂ (generateSyncCode f)) = none := by
      rw [List.find?_eq_none]
      intro v hv
      have hvcode : v.syncCode ≠ some (generateSyncCode f) := by
        rw [List.mem_map] at hv
        obtain ⟨w, hw, hvw⟩ := hv
        rw [← hdb, List.mem_map] at hw
        obtain ⟨u, hu, hwu⟩ := hw
        by_cases hid : (u.id == profileID) = true
        · rw [if_pos hid] at hwu
          rw [← hwu] at hvw
          rw [if_pos (by rw [hu₀id]; exact hid)] at hvw
          rw [← hvw]
          simp
        · rw [if_neg hid] at hwu
          rw [← hwu] at hvw
          rw [if_neg (by rw [hu₀id]; exact hid)] at hvw
          rw [← hvw]
          exact hfresh u hu
      unfold syncCodeMatches
      rw [(beq_eq_false_iff_ne).mpr hvcode, Bool.false_and]
      simp
    have hcond₂ : ¬(goLen (loginNormalize (generateSyncCode f)) ≠ 8) := hcond
    unfold LoginWithSyncCode
    dsimp only
    rw [if_neg hcond₂, hnorm, hnone]

/-- Witness for `syncCode_single_use`: one profile, a concrete draw of
the code generator, generation at time 0, first login at time 1
succeeds and returns the stored token and cookie bag, second login
fails. -/
theorem syncCode_single_use_witness :
    ∃ u₀, ([{ id := "usr_1", secretToken := "tok", displayName := "n",
              avatarSeed := "s", createdAt := 0,
              cookies := [("kappalib_theme", ⟨"dark", 1⟩)],
              syncCode := none, syncCodeExpiresAt := none }] :
        List UserRow).find? (fun u => u.id == "usr_1") = some u₀ ∧
      (LoginWithSyncCode
        [{ id := "usr_1", secretToken := "tok", displayName := "n",
           avatarSeed := "s", createdAt := 0,
           cookies := [("kappalib_theme", ⟨"dark", 1⟩)],
           syncCode := some (generateSyncCode (fun _ => 0)),
           syncCodeExpiresAt := some (0 + syncCodeTTL) }] 1
        (generateSyncCode (fun _ => 0))).1 =
        .ok { profileID := u₀.id, displayName := u₀.displayName,
              avatarSeed := u₀.avatarSeed, createdAt := u₀.createdAt,
              secretToken := u₀.secretToken, cookies := u₀.cookies } ∧
      (∀ v ∈ (LoginWithSyncCode
        [{ id := "usr_1", secretToken := "tok", displayName := "n",
           avatarSeed := "s", createdAt := 0,
           cookies := [("kappalib_theme", ⟨"dark", 1⟩)],
           syncCode := some (generateSyncCode (fun _ => 0)),
           syncCodeExpiresAt := some (0 + syncCodeTTL) }] 1
        (generateSyncCode (fun _ => 0))).2,
        v.id = "usr_1" → v.syncCode = none ∧ v.syncCodeExpiresAt = none) ∧
      (∀ v ∈ (LoginWithSyncCode
        [{ id := "usr_1", secretToken := "tok", displayName := "n",
           avatarSeed := "s", createdAt := 0,
           cookies := [("kappalib_theme", ⟨"dark", 1⟩)],
           syncCode := some (generateSyncCode (fun _ => 0)),
           syncCodeExpiresAt := some (0 + syncCodeTTL) }] 1
        (generateSyncCode (fun _ => 0))).2,
        v.syncCode ≠ some (generateSyncCode (fun _ => 0))) ∧
      (∀ t₂, (LoginWithSyncCode
        ((LoginWithSyncCode
          [{ id := "usr_1", secretToken := "tok", displayName := "n",
             avatarSeed := "s", createdAt := 0,
             cookies := [("kappalib_theme", ⟨"dark", 1⟩)],
             syncCode := some (generateSyncCode (fun _ => 0)),
             syncCodeExpiresAt := some (0 + syncCodeTTL) }] 1
          (generateSyncCode (fun _ => 0))).2) t₂
        (generateSyncCode (fun _ => 0))).1 = .error .invalidOrExpired) :=
  syncCode_single_use
    [{ id := "usr_1", secretToken := "tok", displayName := "n",
       avatarSeed := "s", createdAt := 0,
       cookies := [("kappalib_theme", ⟨"dark", 1⟩)],
       syncCode := none, syncCodeExpiresAt := none }]
    0 1 "usr_1" "tok" (fun _ => 0) (0 + syncCodeTTL)
    [{ id := "usr_1", secretToken := "tok", displayName := "n",
       avatarSeed := "s", createdAt := 0,
       cookies := [("kappalib_theme", ⟨"dark", 1⟩)],
       syncCode := some (generateSyncCode (fun _ => 0)),
       syncCodeExpiresAt := some (0 + syncCodeTTL) }]
    rfl (by decide) (by decide)

end Kappalib
